import Mathlib

/-!
Verification of the abapPretty synchronization orchestrator (`src/main.ts`,
class `Main`) against its natural-language specification.

The TypeScript code is shallowly embedded: every remote call made through the
ADT client (and every other external collaborator: the include expander, the
abapLint formatter, the lint-config loader, the discovery query) is modelled
as an oracle function stored in a `Client` structure, returning
`Except Err α`.  Each method of `Main` becomes a pure Lean function that
returns its result, the updated mutable `Status`, and the ordered trace of
external calls it performed, so that properties such as "exactly one unlock
call" are statements about the trace.  A thrown JavaScript exception is the
`Except.error` case, and `cli.error` (which throws in oclif) is `Err.cli`.
-/

namespace AbapPretty

/-- `{ type, name, url }` object descriptor (`AbapObject` from `lib/abap`). -/
structure AbapObject where
  type : String
  name : String
  url : String
deriving DecidableEq, Repr

/-- `{ type, name, sourceUrl, metaUrl }` include descriptor (`AbapInclude`). -/
structure AbapInclude where
  type : String
  name : String
  sourceUrl : String
  metaUrl : String
deriving DecidableEq, Repr

/-- The `type`/`message` fields carried by an ADT exception object. -/
structure AdtErrorInfo where
  type : String
  message : String
deriving DecidableEq, Repr

/-- A thrown JavaScript error: an ADT exception (with `type` and `message`
fields), an oclif `cli.error`, or a plain runtime `TypeError`. -/
inductive Err where
  | adt (info : AdtErrorInfo)
  | cli (msg : String)
  | js (msg : String)
deriving DecidableEq, Repr

/-- `AdtLock` as used by `main.ts`: `LOCK_HANDLE` and `CORRNR` are strings
whose JavaScript truthiness is "nonempty", `IS_LOCAL` is a boolean. -/
structure AdtLock where
  LOCK_HANDLE : String
  IS_LOCAL : Bool
  CORRNR : String
deriving DecidableEq, Repr

/-- A message inside an activation result (`shortText` field). -/
structure ActivationMessage where
  shortText : String
deriving DecidableEq, Repr

/-- Activation result: `success`, `messages`, and the reported inactive set. -/
structure ActivationResult where
  success : Bool
  messages : List ActivationMessage
  inactive : List String
deriving DecidableEq, Repr

/-- Modelled from the spec: `inactiveObjectsInResults` is an external
`abap-adt-api` helper (not under `src/`) that extracts from an activation
result "that inactive set" which the second activation pass is scoped to. -/
def inactiveObjectsInResults (r : ActivationResult) : List String :=
  r.inactive

/-- `Options`: `test` is the dry-run flag, `transport` the optional
change-tracking id (a JavaScript `string | undefined`). -/
structure Options where
  test : Bool
  transport : Option String
deriving DecidableEq, Repr

/-- The mutable `Status` record owned by `Main`. -/
structure Status where
  currentObject : Option AbapObject
  currentInclude : Option AbapInclude
  processedObjects : Nat
  processedIncludes : Nat
  writtenIncludes : Nat
deriving DecidableEq, Repr

/-- The `status` field as initialised in the class body of `Main`. -/
def initialStatus : Status :=
  { currentObject := none, currentInclude := none,
    processedObjects := 0, processedIncludes := 0, writtenIncludes := 0 }

/-- One external call or `cli.log` line, recorded in order of occurrence. -/
inductive Call where
  | lock (url : String)
  | unLock (url handle : String)
  | setObjectSource (url text handle : String) (transport : Option String)
  | getObjectSource (url : String)
  | prettyPrinter (source : String)
  | abapLintPP (source : String)
  | mainPrograms (metaUrl : String)
  | activate (name url : String) (mainUrl : Option String)
  | activateInactives (objs : List String)
  | expandObj (o : AbapObject)
  | loadLintConfig (path : String)
  | setStateful (b : Bool)
  | dropSession
  | log (msg : String)
deriving DecidableEq, Repr

/-- The oracle for every external collaborator: each field gives the outcome
the remote side would produce for a given call. -/
structure Client where
  lockResult : String → Except Err AdtLock
  unLockResult : String → String → Except Err Unit
  setObjectSourceResult : String → String → String → Option String → Except Err Unit
  getObjectSourceResult : String → Except Err String
  prettyPrinterResult : String → Except Err String
  mainProgramsResult : String → Except Err (List String)
  activateResult : String → String → Option String → Except Err ActivationResult
  activateInactivesResult : List String → Except Err ActivationResult
  expandResult : AbapObject → Except Err (List AbapInclude)
  loadAbapLintConfigResult : String → Except Err Unit
  abapLintPPResult : AbapInclude → String → Except Err String
  queryListResult : String → String → Bool → Except Err (List AbapObject)

/-- JavaScript truthiness of a `string | undefined` value. -/
def truthyOpt : Option String → Bool
  | none => false
  | some s => s ≠ ""

/-- JavaScript strict equality `x === y` between a `string | undefined`
value and a string (`undefined === s` is false). -/
def optEqStr : Option String → String → Bool
  | none, _ => false
  | some s, t => s = t

/-- JavaScript template interpolation of a `string | undefined` value. -/
def showOptStr : Option String → String
  | none => "undefined"
  | some s => s

/-- Does the character list start with `locked`, ignoring ASCII case (the
anchored step of the `/locked/i` regex test). -/
def startsWithLockedCI : List Char → Bool
  | a :: b :: c :: d :: e :: f :: _ =>
    (a = 'l' || a = 'L') && (b = 'o' || b = 'O') && (c = 'c' || c = 'C') &&
    (d = 'k' || d = 'K') && (e = 'e' || e = 'E') && (f = 'd' || f = 'D')
  | _ => false

/-- Auxiliary scan for `containsLockedCI`: try the match at every suffix. -/
def containsLockedAux : List Char → Bool
  | [] => false
  | c :: cs => startsWithLockedCI (c :: cs) || containsLockedAux cs

/-- Case-insensitive test for `/locked/i`: does the string contain the
substring `locked` in any mixture of ASCII case. -/
def containsLockedCI (s : String) : Bool :=
  containsLockedAux s.data

/-- `Main.tryLock`: call `client.lock`; a refusal whose `type` is
`ExceptionResourceNoAccess` and whose message does not match `/locked/i`
yields `undefined` (here `none`); everything else is rethrown. -/
def tryLock (c : Client) (url : String) : Except Err (Option AdtLock) × List Call :=
  match c.lockResult url with
  | .ok l => (.ok (some l), [Call.lock url])
  | .error e =>
    match e with
    | .adt info =>
      if info.type = "ExceptionResourceNoAccess" && !containsLockedCI info.message then
        (.ok none, [Call.lock url])
      else
        (.error (Err.adt info), [Call.lock url])
    | _ => (.error e, [Call.lock url])

/-- `Main.validateTransport`: the three sequential `cli.error` guards; the
first whose condition holds throws.  Returns the thrown message. -/
def validateTransport (lock : AdtLock) (key : String) (transport : Option String) :
    Except String Unit :=
  if lock.IS_LOCAL && truthyOpt transport then
    .error ("Object " ++ key ++ " is local, can't use " ++ showOptStr transport)
  else if !lock.IS_LOCAL && !truthyOpt transport then
    .error ("Object " ++ key ++ " requires a transport " ++
      (if lock.CORRNR ≠ "" then "(locked in " ++ lock.CORRNR ++ ")" else ""))
  else if !optEqStr transport lock.CORRNR && !lock.IS_LOCAL && lock.CORRNR ≠ "" then
    .error ("Object " ++ key ++ " locked in transport " ++ lock.CORRNR ++
      " can't use " ++ showOptStr transport)
  else
    .ok ()

/-- The `${incl.type} ${incl.name}` key used in progress and error texts. -/
def inclKey (incl : AbapInclude) : String :=
  incl.type ++ " " ++ incl.name

/-- `Main.activate`: for a `PROG/I` include, look up the main programs and
activate with the first one's `adtcore:uri` as context (`main?.[0][...]`
raises a `TypeError` when the list is empty); otherwise activate directly
and, when the result reports inactive objects, run exactly one follow-up
activation over `inactiveObjectsInResults` of that result. -/
def activate (c : Client) (incl : AbapInclude) :
    Except Err ActivationResult × List Call :=
  if incl.type = "PROG/I" then
    match c.mainProgramsResult incl.metaUrl with
    | .error e => (.error e, [Call.mainPrograms incl.metaUrl])
    | .ok mains =>
      match mains.head? with
      | none =>
        (.error (Err.js "TypeError: Cannot read properties of undefined"),
          [Call.mainPrograms incl.metaUrl])
      | some uri =>
        (c.activateResult incl.name incl.sourceUrl (some uri),
          [Call.mainPrograms incl.metaUrl,
           Call.activate incl.name incl.sourceUrl (some uri)])
  else
    match c.activateResult incl.name incl.sourceUrl none with
    | .error e => (.error e, [Call.activate incl.name incl.sourceUrl none])
    | .ok active =>
      if active.inactive.length > 0 then
        let inactives := inactiveObjectsInResults active
        (c.activateInactivesResult inactives,
          [Call.activate incl.name incl.sourceUrl none,
           Call.activateInactives inactives])
      else
        (.ok active, [Call.activate incl.name incl.sourceUrl none])

/-- `active.messages[0]?.shortText || "Failed to activate " + key`. -/
def activationFailureMsg (active : ActivationResult) (key : String) : String :=
  match active.messages.head? with
  | some m => if m.shortText = "" then "Failed to activate " ++ key else m.shortText
  | none => "Failed to activate " ++ key

/-- `Main.write`: handle check, transport validation, the (dry-run-skippable)
`setObjectSource`, the unconditional `unLock`, the (dry-run-skippable)
activation with its failure check, then `writtenIncludes++`. -/
def write (c : Client) (st : Status) (incl : AbapInclude) (formatted : String)
    (lock : AdtLock) (opts : Options) : Except Err Unit × Status × List Call :=
  let key := inclKey incl
  if lock.LOCK_HANDLE = "" then
    (.error (Err.cli ("Failed to lock " ++ key)), st, [])
  else
    match validateTransport lock key opts.transport with
    | .error m => (.error (Err.cli m), st, [])
    | .ok _ =>
      let writeStep : Except Err Unit × List Call :=
        if opts.test then (.ok (), [])
        else
          (c.setObjectSourceResult incl.sourceUrl formatted lock.LOCK_HANDLE opts.transport,
           [Call.setObjectSource incl.sourceUrl formatted lock.LOCK_HANDLE opts.transport])
      match writeStep with
      | (.error e, wtrace) => (.error e, st, wtrace)
      | (.ok _, wtrace) =>
        let t1 := wtrace ++ [Call.unLock incl.sourceUrl lock.LOCK_HANDLE]
        match c.unLockResult incl.sourceUrl lock.LOCK_HANDLE with
        | .error e => (.error e, st, t1)
        | .ok _ =>
          if opts.test then
            (.ok (), { st with writtenIncludes := st.writtenIncludes + 1 }, t1)
          else
            match activate c incl with
            | (.error e, atrace) => (.error e, st, t1 ++ atrace)
            | (.ok active, atrace) =>
              if active.success = false then
                (.error (Err.cli (activationFailureMsg active key)), st, t1 ++ atrace)
              else
                (.ok (), { st with writtenIncludes := st.writtenIncludes + 1 },
                  t1 ++ atrace)

/-- `Main.format`: the abapLint pretty-printer when an abapLint config is
set (JavaScript truthiness), else the client's own pretty-printer. -/
def format (c : Client) (abapLint : Option String) (incl : AbapInclude)
    (source : String) : Except Err String × List Call :=
  if truthyOpt abapLint then
    (c.abapLintPPResult incl source, [Call.abapLintPP source])
  else
    (c.prettyPrinterResult source, [Call.prettyPrinter source])

/-- `Main.processInclude`: set `currentInclude`, read, format, compare; when
changed, `tryLock` and (if a lock was obtained) `write`; finally
`processedIncludes++` and clear `currentInclude`. -/
def processInclude (c : Client) (abapLint : Option String) (st : Status)
    (incl : AbapInclude) (opts : Options) : Except Err Unit × Status × List Call :=
  let st := { st with currentInclude := some incl }
  match c.getObjectSourceResult incl.sourceUrl with
  | .error e => (.error e, st, [Call.getObjectSource incl.sourceUrl])
  | .ok source =>
    let fmt := format c abapLint incl source
    let t0 := Call.getObjectSource incl.sourceUrl :: fmt.2
    match fmt.1 with
    | .error e => (.error e, st, t0)
    | .ok formatted =>
      if formatted = source then
        (.ok (), { st with processedIncludes := st.processedIncludes + 1,
                           currentInclude := none }, t0)
      else
        let lk := tryLock c incl.sourceUrl
        match lk.1 with
        | .error e => (.error e, st, t0 ++ lk.2)
        | .ok none =>
          (.ok (), { st with processedIncludes := st.processedIncludes + 1,
                             currentInclude := none }, t0 ++ lk.2)
        | .ok (some lock) =>
          match write c st incl formatted lock opts with
          | (.error e, st2, wtrace) => (.error e, st2, t0 ++ lk.2 ++ wtrace)
          | (.ok _, st2, wtrace) =>
            (.ok (), { st2 with processedIncludes := st2.processedIncludes + 1,
                                currentInclude := none }, t0 ++ lk.2 ++ wtrace)

/-- The inner `for (const incl of includes)` loop of `processObjects`. -/
def processIncludes (c : Client) (abapLint : Option String) (st : Status)
    (incls : List AbapInclude) (opts : Options) :
    Except Err Unit × Status × List Call :=
  match incls with
  | [] => (.ok (), st, [])
  | i :: rest =>
    match processInclude c abapLint st i opts with
    | (.error e, st1, t1) => (.error e, st1, t1)
    | (.ok _, st1, t1) =>
      let r := processIncludes c abapLint st1 rest opts
      (r.1, r.2.1, t1 ++ r.2.2)

/-- The outer `for (const o of objects)` loop of `processObjects`:
set `currentObject`, expand, process the includes, `processedObjects++`. -/
def processLoop (c : Client) (abapLint : Option String) (st : Status)
    (objects : List AbapObject) (opts : Options) :
    Except Err Unit × Status × List Call :=
  match objects with
  | [] => (.ok (), st, [])
  | o :: rest =>
    let st := { st with currentObject := some o }
    match c.expandResult o with
    | .error e => (.error e, st, [Call.expandObj o])
    | .ok incls =>
      match processIncludes c abapLint st incls opts with
      | (.error e, st1, t1) => (.error e, st1, Call.expandObj o :: t1)
      | (.ok _, st1, t1) =>
        let st1 := { st1 with processedObjects := st1.processedObjects + 1 }
        let r := processLoop c abapLint st1 rest opts
        (r.1, r.2.1, Call.expandObj o :: (t1 ++ r.2.2))

/-- The summary text built by `Main.stats` (without the chalk styling). -/
def statsMsg (st : Status) (objnum : Nat) : String :=
  "\n" ++ toString st.processedObjects ++ " of " ++ toString objnum ++
  " objects / " ++ toString st.processedIncludes ++ " includes processed " ++
  toString st.writtenIncludes ++ " written\n"

/-- Modelled from the spec: `ABAPLINT_DEFAULT` is a sentinel constant from
`lib/common` (not under `src/`) marking the built-in abapLint configuration;
`processObjects` only loads a config file when the configured value differs
from it. -/
def ABAPLINT_DEFAULT : String := "DEFAULT"

/-- The `cli.log` lines emitted by the catch block of `processObjects`. -/
def failureReport (st : Status) : List Call :=
  Call.log ("Last object " ++ showOptStr (st.currentObject.map (·.type)) ++ " " ++
      showOptStr (st.currentObject.map (·.name))) ::
    (match st.currentInclude with
     | some i => [Call.log ("Last include " ++ i.type ++ " " ++ i.name)]
     | none => [])

/-- `Main.processObjects`: optional lint-config load (before the
`try`/`finally`), switch to stateful, run the object loop; on an escaping
error log the failure report and rethrow the original error; in `finally`
emit the stats, switch back to stateless and drop the session. -/
def processObjects (c : Client) (abapLint : Option String) (st : Status)
    (objects : List AbapObject) (opts : Options) :
    Except Err Unit × Status × List Call :=
  let cfg : Except Err Unit × List Call :=
    if truthyOpt abapLint && abapLint ≠ some ABAPLINT_DEFAULT then
      (c.loadAbapLintConfigResult (showOptStr abapLint),
       [Call.loadLintConfig (showOptStr abapLint)])
    else (.ok (), [])
  match cfg with
  | (.error e, ctrace) => (.error e, st, ctrace)
  | (.ok _, ctrace) =>
    let t0 := ctrace ++ [Call.setStateful true]
    match processLoop c abapLint st objects opts with
    | (.error e, st1, t1) =>
      (.error e, st1,
        t0 ++ t1 ++ failureReport st1 ++
          [Call.log (statsMsg st1 objects.length), Call.setStateful false,
           Call.dropSession])
    | (.ok _, st1, t1) =>
      (.ok (), st1,
        t0 ++ t1 ++
          [Call.log (statsMsg st1 objects.length), Call.setStateful false,
           Call.dropSession])

/-- The ASCII characters matched by the JavaScript regex class `\s`. -/
def isJsWs (ch : Char) : Bool :=
  ch = ' ' || ch = '\t' || ch = '\n' || ch = '\r' ||
  ch = Char.ofNat 11 || ch = Char.ofNat 12

/-- JavaScript `String.prototype.split(/\s+/)` over a character list: runs of
whitespace separate fields, and a run touching either end contributes an
empty field there (as the JS regex split does). -/
def splitJsWs : List Char → List (List Char)
  | [] => [[]]
  | ch :: cs =>
    let rest := splitJsWs cs
    if isJsWs ch then
      match cs with
      | c2 :: _ => if isJsWs c2 then rest else [] :: rest
      | [] => [] :: rest
    else
      match rest with
      | t :: ts => (ch :: t) :: ts
      | [] => [[ch]]

/-- `x.split(/\s+/, 3)`: the whitespace split, limited to three fields. -/
def splitWs3 (s : String) : List String :=
  ((splitJsWs s.data).map fun l => String.mk l).take 3

/-- JavaScript `split("\n")` over the character list: newline-separated
segments, empty segments preserved. -/
def splitLines : List Char → List (List Char)
  | [] => [[]]
  | ch :: cs =>
    let rest := splitLines cs
    if ch = '\n' then [] :: rest
    else
      match rest with
      | t :: ts => (ch :: t) :: ts
      | [] => [[ch]]

/-- The lines of the manifest file, in file order (`.split("\n")`). -/
def fileLines (content : String) : List String :=
  (splitLines content.data).map fun l => String.mk l

/-- The `isHeader` closure of `Main.list`: line index 0 with no `/`. -/
def isHeader (l : String) (i : Nat) : Bool :=
  i = 0 && !(l.data.contains '/')

/-- The filtered manifest rows: split the file on newlines, drop empty lines
and the header (`filter((l, i) => l && !isHeader(l, i))`). -/
def manifestRows (content : String) : List String :=
  ((fileLines content).enum.filter fun p => p.2 ≠ "" && !isHeader p.2 p.1).map
    Prod.snd

/-- One row of the manifest `.map` body: destructure the (at most) three
whitespace-separated fields, fail on an unsupported type or a missing url.
`supported` models `supportedType` from `lib/abap` (not under `src/`),
passed as a parameter; `i` is the index within the filtered rows. -/
def parseRow (supported : String → Bool) (file : String) (i : Nat)
    (line : String) : Except String AbapObject :=
  let parts := splitWs3 line
  let type := parts[0]?.getD ""
  let name := parts[1]?
  let url := parts[2]?
  if !supported type then
    .error ("Objects of type " ++ type ++ " are not supportes near line " ++
      toString i ++ " of file " ++ file)
  else if !truthyOpt url then
    .error ("URL not specified for object " ++ type ++ " " ++ showOptStr name ++
      " in file " ++ file)
  else
    .ok { type := type, name := showOptStr name, url := showOptStr url }

/-- The manifest `.map` over all filtered rows, failing at the first bad row
(`cli.error` throws out of the JavaScript `map`). -/
def parseRows (supported : String → Bool) (file : String) :
    Nat → List String → Except String (List AbapObject)
  | _, [] => .ok []
  | i, l :: rest =>
    match parseRow supported file i l with
    | .error m => .error m
    | .ok o =>
      match parseRows supported file (i + 1) rest with
      | .error m => .error m
      | .ok os => .ok (o :: os)

/-- The manifest branch of `Main.list` applied to the file's content. -/
def listFromFile (supported : String → Bool) (file : String)
    (content : String) : Except String (List AbapObject) :=
  parseRows supported file 0 (manifestRows content)

/-- `ListOptions` as consumed by `Main.list`. -/
structure ListOpts where
  file : Option String
  recursive : Bool

/-- `Main.list`: mode-conflict guards, then either the manifest branch (the
file's content is supplied by the `readFile` oracle) or the external
discovery query. -/
def listMain (c : Client) (supported : String → Bool)
    (readFile : String → String) (type name : String) (opts : ListOpts) :
    Except Err (List AbapObject) :=
  if (name ≠ "" || type ≠ "") && truthyOpt opts.file then
    .error (Err.cli "Can't specify an object name or type and a list file at the same time")
  else if truthyOpt opts.file then
    match listFromFile supported (showOptStr opts.file)
        (readFile (showOptStr opts.file)) with
    | .error m => .error (Err.cli m)
    | .ok objs => .ok objs
  else if name = "" || type = "" then
    .error (Err.cli "Object type and name required unless a list file is provided")
  else
    c.queryListResult type name opts.recursive

/-! ## Trace classifiers and small helpers -/

/-- Recognizes an `unLock` call in a trace. -/
def isUnLockCall : Call → Bool
  | .unLock _ _ => true
  | _ => false

/-- Recognizes a `setObjectSource` call in a trace. -/
def isSetSourceCall : Call → Bool
  | .setObjectSource _ _ _ _ => true
  | _ => false

/-- Recognizes any call belonging to the activation step. -/
def isActivationCall : Call → Bool
  | .activate _ _ _ => true
  | .activateInactives _ => true
  | .mainPrograms _ => true
  | _ => false

/-- Recognizes a `lock` call in a trace. -/
def isLockCall : Call → Bool
  | .lock _ => true
  | _ => false

/-- Recognizes a `getObjectSource` read in a trace. -/
def isGetSourceCall : Call → Bool
  | .getObjectSource _ => true
  | _ => false

/-- Recognizes the `dropSession` teardown call. -/
def isDropSessionCall : Call → Bool
  | .dropSession => true
  | _ => false

/-- Recognizes a `cli.log` line in a trace. -/
def isLogCall : Call → Bool
  | .log _ => true
  | _ => false

/-- Recognizes every state-changing remote call of the per-include pipeline:
lock, write, unlock, or any activation call. -/
def isMutationCall (x : Call) : Bool :=
  isLockCall x || isSetSourceCall x || isUnLockCall x || isActivationCall x

/-- Boolean success test for an `Except` value. -/
def isOkB {ε α : Type} : Except ε α → Bool
  | .ok _ => true
  | .error _ => false

/-- A concrete, everywhere-succeeding oracle used to instantiate witnesses;
individual outcomes are overridden per scenario with record updates. -/
def baseClient : Client where
  lockResult := fun _ => .ok ⟨"HANDLE", true, ""⟩
  unLockResult := fun _ _ => .ok ()
  setObjectSourceResult := fun _ _ _ _ => .ok ()
  getObjectSourceResult := fun _ => .ok "REPORT ztest."
  prettyPrinterResult := fun s => .ok s
  mainProgramsResult := fun _ => .ok ["/sap/bc/adt/programs/programs/zmain"]
  activateResult := fun _ _ _ => .ok ⟨true, [], []⟩
  activateInactivesResult := fun _ => .ok ⟨true, [], []⟩
  expandResult := fun _ => .ok []
  loadAbapLintConfigResult := fun _ => .ok ()
  abapLintPPResult := fun _ s => .ok s
  queryListResult := fun _ _ _ => .ok []

/-- A sample include used by several witness instantiations. -/
def sampleInclude : AbapInclude :=
  { type := "PROG/P", name := "ZTEST",
    sourceUrl := "/sap/bc/adt/programs/programs/ztest/source/main",
    metaUrl := "/sap/bc/adt/programs/programs/ztest" }

/-! ## Claim theorems -/

/-- Claim C3: `validateTransport` raises exactly in the three mutually
exclusive situations — (1) a local lock with a supplied tracking id, (2) a
non-local lock with no tracking id supplied, (3) a non-local lock that
already carries a tracking id different from the supplied one — and returns
without error in every other combination of the lock/tracking-id grid. -/
theorem C3_validateTransport_matrix (lock : AdtLock) (key : String)
    (transport : Option String) :
    (isOkB (validateTransport lock key transport) =
      !((lock.IS_LOCAL && truthyOpt transport) ||
        (!lock.IS_LOCAL && !truthyOpt transport) ||
        (!lock.IS_LOCAL && truthyOpt transport && decide (lock.CORRNR ≠ "") &&
          !optEqStr transport lock.CORRNR))) ∧
    ((lock.IS_LOCAL && truthyOpt transport) &&
      (!lock.IS_LOCAL && !truthyOpt transport)) = false ∧
    ((lock.IS_LOCAL && truthyOpt transport) &&
      (!lock.IS_LOCAL && truthyOpt transport && decide (lock.CORRNR ≠ "") &&
        !optEqStr transport lock.CORRNR)) = false ∧
    ((!lock.IS_LOCAL && !truthyOpt transport) &&
      (!lock.IS_LOCAL && truthyOpt transport && decide (lock.CORRNR ≠ "") &&
        !optEqStr transport lock.CORRNR)) = false := by
  obtain ⟨hdl, loc, corr⟩ := lock
  cases loc <;> cases transport <;>
    simp_all [validateTransport, truthyOpt, optEqStr, isOkB] <;>
    rename_i s <;> by_cases hs : s = "" <;> by_cases hc : corr = "" <;>
    by_cases hsc : s = corr <;> simp_all [validateTransport, isOkB]

/-- Claim C2: `tryLock` yields "absent" exactly when the remote refusal's
type is `ExceptionResourceNoAccess` and its message does not match
`/locked/i`; every other refusal propagates unchanged; and the absent
outcome makes `processInclude` a non-error skip that leaves
`writtenIncludes` unchanged. -/
theorem C2_tryLock_classification (c : Client) (incl : AbapInclude)
    (e : AdtErrorInfo) (h : c.lockResult incl.sourceUrl = .error (Err.adt e)) :
    ((tryLock c incl.sourceUrl).1 = .ok none ↔
      (e.type = "ExceptionResourceNoAccess" ∧ containsLockedCI e.message = false)) ∧
    ((e.type ≠ "ExceptionResourceNoAccess" ∨ containsLockedCI e.message = true) →
      (tryLock c incl.sourceUrl).1 = .error (Err.adt e)) ∧
    (∀ (abapLint : Option String) (st : Status) (opts : Options)
        (source formatted : String),
      c.getObjectSourceResult incl.sourceUrl = .ok source →
      (format c abapLint incl source).1 = .ok formatted →
      formatted ≠ source →
      e.type = "ExceptionResourceNoAccess" →
      containsLockedCI e.message = false →
      (processInclude c abapLint st incl opts).1 = .ok () ∧
      (processInclude c abapLint st incl opts).2.1.writtenIncludes =
        st.writtenIncludes) := by
  refine ⟨?_, ?_, ?_⟩
  · by_cases ht : e.type = "ExceptionResourceNoAccess" <;>
      by_cases hm : containsLockedCI e.message <;>
      simp [tryLock, h, ht, hm]
  · intro hor
    rcases hor with ht | hm
    · simp [tryLock, h, ht]
    · by_cases ht : e.type = "ExceptionResourceNoAccess" <;>
        simp [tryLock, h, ht, hm]
  · intro abapLint st opts source formatted hgs hf hne ht hm
    simp [processInclude, hgs, hf, hne, tryLock, h, ht, hm]

/-- Witness for claim C2: a concrete `ExceptionResourceNoAccess` refusal with
a non-"locked" message is skipped and leaves `writtenIncludes` at 0. -/
theorem C2_tryLock_classification_witness :
    (tryLock
      { baseClient with
        lockResult := fun _ => .error (Err.adt ⟨"ExceptionResourceNoAccess", "resource is generated"⟩)
        prettyPrinterResult := fun s => .ok (s ++ ".") }
      sampleInclude.sourceUrl).1 = .ok none ∧
    (processInclude
      { baseClient with
        lockResult := fun _ => .error (Err.adt ⟨"ExceptionResourceNoAccess", "resource is generated"⟩)
        prettyPrinterResult := fun s => .ok (s ++ ".") }
      none initialStatus sampleInclude ⟨false, none⟩).2.1.writtenIncludes = 0 := by
  have h := C2_tryLock_classification
    { baseClient with
      lockResult := fun _ => .error (Err.adt ⟨"ExceptionResourceNoAccess", "resource is generated"⟩)
      prettyPrinterResult := fun s => .ok (s ++ ".") }
    sampleInclude ⟨"ExceptionResourceNoAccess", "resource is generated"⟩ rfl
  refine ⟨h.1.mpr ⟨rfl, by decide⟩, ?_⟩
  exact (h.2.2 none initialStatus ⟨false, none⟩ "REPORT ztest." "REPORT ztest.."
    rfl rfl (by decide) rfl (by decide)).2

/-- Claim C6: for a non-`PROG/I` include, `activate` activates directly;
when the result reports a nonempty inactive set it issues exactly one
follow-up activation scoped to exactly `inactiveObjectsInResults` of that
result and returns the second call's outcome as final — the trace shows one
direct activation plus at most one retry, with no further recursion. -/
theorem C6_activate_single_retry (c : Client) (incl : AbapInclude)
    (r r2 : ActivationResult) (hty : incl.type ≠ "PROG/I")
    (h1 : c.activateResult incl.name incl.sourceUrl none = .ok r) :
    (r.inactive = [] →
      activate c incl = (.ok r, [Call.activate incl.name incl.sourceUrl none])) ∧
    (r.inactive ≠ [] →
      c.activateInactivesResult (inactiveObjectsInResults r) = .ok r2 →
      activate c incl =
        (.ok r2,
         [Call.activate incl.name incl.sourceUrl none,
          Call.activateInactives (inactiveObjectsInResults r)])) := by
  constructor
  · intro hin
    simp [activate, hty, h1, hin]
  · intro hin h2
    have hlen : 0 < r.inactive.length := List.length_pos.mpr hin
    simp [activate, hty, h1, hlen, h2]

/-- Witness for claim C6: a result reporting two inactive objects triggers
exactly one follow-up activation over those two objects, whose result is
returned as final. -/
theorem C6_activate_single_retry_witness :
    activate
      { baseClient with
        activateResult := fun _ _ _ =>
          .ok ⟨false, [], ["ZINACT1", "ZINACT2"]⟩
        activateInactivesResult := fun objs =>
          if objs = ["ZINACT1", "ZINACT2"] then .ok ⟨true, [], []⟩
          else .error (Err.js "unexpected inactive set") }
      sampleInclude =
    (.ok ⟨true, [], []⟩,
     [Call.activate sampleInclude.name sampleInclude.sourceUrl none,
      Call.activateInactives ["ZINACT1", "ZINACT2"]]) := by
  exact (C6_activate_single_retry
    { baseClient with
      activateResult := fun _ _ _ => .ok ⟨false, [], ["ZINACT1", "ZINACT2"]⟩
      activateInactivesResult := fun objs =>
        if objs = ["ZINACT1", "ZINACT2"] then .ok ⟨true, [], []⟩
        else .error (Err.js "unexpected inactive set") }
    sampleInclude ⟨false, [], ["ZINACT1", "ZINACT2"]⟩ ⟨true, [], []⟩
    (by decide) rfl).2 (by decide) rfl

/-- Claim C7: with `test = true`, `write` performs no `setObjectSource` and
no activation call, the lock-handle check and transport validation produce
exactly the same outcome as in a real run, and when both checks pass the
unlock call still occurs (the dry-run trace is exactly one unlock). -/
theorem C7_dry_run_behaviour (c : Client) (st : Status) (incl : AbapInclude)
    (formatted : String) (lock : AdtLock) (transport : Option String) :
    ((write c st incl formatted lock ⟨true, transport⟩).2.2.countP isSetSourceCall = 0 ∧
     (write c st incl formatted lock ⟨true, transport⟩).2.2.countP isActivationCall = 0) ∧
    ((lock.LOCK_HANDLE = "" ∨
        (∃ m, validateTransport lock (inclKey incl) transport = .error m)) →
      (write c st incl formatted lock ⟨true, transport⟩).1 =
        (write c st incl formatted lock ⟨false, transport⟩).1) ∧
    (lock.LOCK_HANDLE ≠ "" →
      validateTransport lock (inclKey incl) transport = .ok () →
      (write c st incl formatted lock ⟨true, transport⟩).2.2 =
        [Call.unLock incl.sourceUrl lock.LOCK_HANDLE]) := by
  by_cases hh : lock.LOCK_HANDLE = ""
  · simp [write, hh]
  · cases hv : validateTransport lock (inclKey incl) transport with
    | error m => simp [write, hh, hv]
    | ok u =>
      cases hu : c.unLockResult incl.sourceUrl lock.LOCK_HANDLE <;>
        simp [write, hh, hv, hu, isSetSourceCall, isActivationCall,
          List.countP_cons]

/-- Witness for claim C7: a concrete dry-run write against a local object
issues exactly the unlock call and nothing else. -/
theorem C7_dry_run_behaviour_witness :
    (write baseClient initialStatus sampleInclude "formatted text"
        ⟨"DRYHANDLE", true, ""⟩ ⟨true, none⟩).2.2 =
      [Call.unLock sampleInclude.sourceUrl "DRYHANDLE"] ∧
    (write baseClient initialStatus sampleInclude "formatted text"
        ⟨"DRYHANDLE", true, ""⟩ ⟨true, none⟩).2.2.countP isSetSourceCall = 0 := by
  have h := C7_dry_run_behaviour baseClient initialStatus sampleInclude
    "formatted text" ⟨"DRYHANDLE", true, ""⟩ none
  exact ⟨h.2.2 (by decide) rfl, h.1.1⟩

/-- Claim C10: a dry-run `write` that passes its checks still increments
`writtenIncludes` by one after the unlock, while the trace shows that no
`setObjectSource` and no activation call was made. -/
theorem C10_dry_run_written_increment (c : Client) (st : Status)
    (incl : AbapInclude) (formatted : String) (lock : AdtLock)
    (transport : Option String) (hh : lock.LOCK_HANDLE ≠ "")
    (hv : validateTransport lock (inclKey incl) transport = .ok ())
    (hu : c.unLockResult incl.sourceUrl lock.LOCK_HANDLE = .ok ()) :
    write c st incl formatted lock ⟨true, transport⟩ =
      (.ok (), { st with writtenIncludes := st.writtenIncludes + 1 },
       [Call.unLock incl.sourceUrl lock.LOCK_HANDLE]) := by
  simp [write, hh, hv, hu]

/-- Witness for claim C10: a concrete dry-run write ends with
`writtenIncludes = 1` and a trace holding only the unlock call. -/
theorem C10_dry_run_written_increment_witness :
    write baseClient initialStatus sampleInclude "formatted text"
        ⟨"DRYHANDLE", true, ""⟩ ⟨true, none⟩ =
      (.ok (), { initialStatus with writtenIncludes := 1 },
       [Call.unLock sampleInclude.sourceUrl "DRYHANDLE"]) := by
  exact C10_dry_run_written_increment baseClient initialStatus sampleInclude
    "formatted text" ⟨"DRYHANDLE", true, ""⟩ none (by decide) rfl rfl

/-- Claim C4: when the formatted text equals the source text read from the
remote, `processInclude` succeeds while performing no lock, write, unlock or
activation call, leaves `writtenIncludes` unchanged, and only bumps
`processedIncludes`; a rerun over stabilized content therefore performs zero
such calls. -/
theorem C4_unchanged_skip (c : Client) (abapLint : Option String) (st : Status)
    (incl : AbapInclude) (opts : Options) (source : String)
    (hr : c.getObjectSourceResult incl.sourceUrl = .ok source)
    (hf : (format c abapLint incl source).1 = .ok source) :
    (processInclude c abapLint st incl opts).1 = .ok () ∧
    (processInclude c abapLint st incl opts).2.1 =
      { st with processedIncludes := st.processedIncludes + 1,
                currentInclude := none } ∧
    (processInclude c abapLint st incl opts).2.2.countP isMutationCall = 0 := by
  by_cases hb : truthyOpt abapLint <;>
    simp [format, hb] at hf <;>
    simp [processInclude, format, hb, hr, hf, isMutationCall, isLockCall,
      isSetSourceCall, isUnLockCall, isActivationCall, isGetSourceCall,
      List.countP_cons]

/-- Witness for claim C4: with the identity pretty-printer the sample include
is skipped, counters move from the initial status only on
`processedIncludes`, and the trace holds no mutating call. -/
theorem C4_unchanged_skip_witness :
    (processInclude baseClient none initialStatus sampleInclude
        ⟨false, none⟩).1 = .ok () ∧
    (processInclude baseClient none initialStatus sampleInclude
        ⟨false, none⟩).2.1 =
      { initialStatus with processedIncludes := 1, currentInclude := none } ∧
    (processInclude baseClient none initialStatus sampleInclude
        ⟨false, none⟩).2.2.countP isMutationCall = 0 := by
  exact C4_unchanged_skip baseClient none initialStatus sampleInclude
    ⟨false, none⟩ "REPORT ztest." rfl rfl

/-- The activation step never issues an unlock call of its own. -/
theorem activate_trace_no_unLock (c : Client) (incl : AbapInclude) :
    ((activate c incl).2).countP isUnLockCall = 0 := by
  by_cases hty : incl.type = "PROG/I"
  · cases h : c.mainProgramsResult incl.metaUrl with
    | error e => simp [activate, hty, h, isUnLockCall]
    | ok mains =>
      cases mains with
      | nil => simp [activate, hty, h, isUnLockCall]
      | cons a as => simp [activate, hty, h, isUnLockCall, List.countP_cons]
  · cases h : c.activateResult incl.name incl.sourceUrl none with
    | error e => simp [activate, hty, h, isUnLockCall]
    | ok r =>
      by_cases hi : r.inactive.length > 0 <;>
        simp [activate, hty, h, hi, isUnLockCall, List.countP_cons]

/-- Counterexample for claim C1: when the remote `setObjectSource` call
throws, `write` propagates the failure without ever calling `unLock` — the
lock stays held, contradicting "exactly one unlock call is issued ...
regardless of whether the write ... step fails". -/
theorem C1_counterexample :
    (write
      { baseClient with setObjectSourceResult := fun _ _ _ _ => (.error (Err.adt ⟨"ExceptionSomething", "save failed"⟩)) }
      initialStatus sampleInclude "new text" ⟨"HANDLE", true, ""⟩
      ⟨false, none⟩).1 = .error (Err.adt ⟨"ExceptionSomething", "save failed"⟩) ∧
    (write
      { baseClient with setObjectSourceResult := fun _ _ _ _ => (.error (Err.adt ⟨"ExceptionSomething", "save failed"⟩)) }
      initialStatus sampleInclude "new text" ⟨"HANDLE", true, ""⟩
      ⟨false, none⟩).2.2.countP isUnLockCall = 0 := by
  constructor <;> rfl

/-- Claim C1 (amended): for an include whose `write` passes the lock-handle
and transport checks, exactly one unlock call occurs immediately after the
write attempt whenever that attempt succeeds or is skipped by dry-run —
in particular an activation failure cannot leak the lock — but when the
remote write itself throws, the error propagates with no unlock call. -/
theorem C1_unlock_discipline (c : Client) (st : Status) (incl : AbapInclude)
    (formatted : String) (lock : AdtLock) (opts : Options)
    (hh : lock.LOCK_HANDLE ≠ "")
    (hv : validateTransport lock (inclKey incl) opts.transport = .ok ()) :
    ((opts.test = true ∨
        c.setObjectSourceResult incl.sourceUrl formatted lock.LOCK_HANDLE
          opts.transport = .ok ()) →
      ∃ rest,
        (write c st incl formatted lock opts).2.2 =
          (if opts.test then [] else
            [Call.setObjectSource incl.sourceUrl formatted lock.LOCK_HANDLE
              opts.transport]) ++
            Call.unLock incl.sourceUrl lock.LOCK_HANDLE :: rest ∧
        rest.countP isUnLockCall = 0) ∧
    (∀ e, opts.test = false →
      c.setObjectSourceResult incl.sourceUrl formatted lock.LOCK_HANDLE
        opts.transport = .error e →
      (write c st incl formatted lock opts).1 = .error e ∧
      (write c st incl formatted lock opts).2.2.countP isUnLockCall = 0) := by
  obtain ⟨test, transport⟩ := opts
  cases test with
  | true =>
    constructor
    · intro _
      refine ⟨[], ?_, by simp⟩
      cases hu : c.unLockResult incl.sourceUrl lock.LOCK_HANDLE <;>
        simp [write, hh, hv, hu]
    · intro e hfalse
      exact absurd hfalse (by simp)
  | false =>
    constructor
    · rintro (habs | hset)
      · exact absurd habs (by simp)
      · cases hu : c.unLockResult incl.sourceUrl lock.LOCK_HANDLE with
        | error e' =>
          refine ⟨[], ?_, by simp⟩
          simp [write, hh, hv, hset, hu]
        | ok u =>
          rcases ha : activate c incl with ⟨ares, atrace⟩
          have hcount : atrace.countP isUnLockCall = 0 := by
            have := activate_trace_no_unLock c incl
            rwa [ha] at this
          refine ⟨atrace, ?_, hcount⟩
          cases ares with
          | error e' => simp [write, hh, hv, hset, hu, ha]
          | ok active =>
            by_cases hs : active.success = false <;>
              simp [write, hh, hv, hset, hu, ha, hs]
    · intro e htest hset
      simp [write, hh, hv, hset, isUnLockCall]

/-- Witness for the amended claim C1: a concrete successful real-mode write
unlocks exactly once, immediately after the `setObjectSource` call. -/
theorem C1_unlock_discipline_witness :
    ∃ rest,
      (write baseClient initialStatus sampleInclude "new text"
          ⟨"HANDLE", true, ""⟩ ⟨false, none⟩).2.2 =
        [Call.setObjectSource sampleInclude.sourceUrl "new text" "HANDLE" none] ++
          Call.unLock sampleInclude.sourceUrl "HANDLE" :: rest ∧
      rest.countP isUnLockCall = 0 := by
  have h := C1_unlock_discipline baseClient initialStatus sampleInclude
    "new text" ⟨"HANDLE", true, ""⟩ ⟨false, none⟩ (by decide) rfl
  exact h.1 (Or.inr rfl)

/-- Does a manifest row parse without error: supported type and present url
(the row-level success condition of the manifest `.map`, independent of the
row's position). -/
def rowOkB (supported : String → Bool) (line : String) : Bool :=
  supported ((splitWs3 line)[0]?.getD "") && truthyOpt (splitWs3 line)[2]?

/-- A manifest row parses successfully exactly when `rowOkB` holds. -/
theorem parseRow_isOk (supported : String → Bool) (file : String) (i : Nat)
    (line : String) :
    isOkB (parseRow supported file i line) = rowOkB supported line := by
  by_cases hs : supported ((splitWs3 line)[0]?.getD "") <;>
    by_cases hu : truthyOpt (splitWs3 line)[2]? <;>
      simp [parseRow, rowOkB, isOkB, hs, hu]

/-- Fail-fast through the manifest rows: with every earlier row valid, the
first invalid row aborts the whole parse with its own error message, and the
index cited in that message is the row's position among the retained rows
(offset by the running index `k`). -/
theorem parseRows_append_error (supported : String → Bool) (file : String)
    (pre : List String) (l : String) (rest : List String)
    (hpre : ∀ x ∈ pre, rowOkB supported x = true)
    (hbad : rowOkB supported l = false) :
    ∀ k, ∃ m, parseRow supported file (k + pre.length) l = .error m ∧
      parseRows supported file k (pre ++ l :: rest) = .error m := by
  induction pre with
  | nil =>
    intro k
    cases h : parseRow supported file (k + 0) l with
    | error m =>
      refine ⟨m, by simpa using h, ?_⟩
      simp only [List.nil_append, parseRows]
      simp only [Nat.add_zero] at h
      simp [h]
    | ok o =>
      have := parseRow_isOk supported file (k + 0) l
      rw [h] at this
      simp [isOkB, hbad] at this
  | cons a pre ih =>
    intro k
    have ha : rowOkB supported a = true := hpre a (by simp)
    cases hp : parseRow supported file k a with
    | error m =>
      have := parseRow_isOk supported file k a
      rw [hp] at this
      simp [isOkB, ha] at this
    | ok o =>
      obtain ⟨m, hbadrow, hrec⟩ := ih (fun x hx => hpre x (by simp [hx])) (k + 1)
      have hlen : k + 1 + pre.length = k + (a :: pre).length := by
        simp [List.length_cons]; omega
      rw [hlen] at hbadrow
      refine ⟨m, hbadrow, ?_⟩
      simp only [List.cons_append, parseRows]
      simp [hp, hrec]

/-- Counterexample for claim C9: in the file `HEADER\nBAD name url` the
offending row sits on file line 1 (0-based; line 0 is the discarded header),
yet the failure message cites "near line 0": the number cited is the row's
index among the retained rows, not the offending line number. -/
theorem C9_counterexample :
    listFromFile (fun t => t = "PROG") "objects.txt" "HEADER\nBAD name url" =
      .error "Objects of type BAD are not supportes near line 0 of file objects.txt" ∧
    (fileLines "HEADER\nBAD name url")[0]? = some "HEADER" ∧
    (fileLines "HEADER\nBAD name url")[1]? = some "BAD name url" := by
  exact ⟨rfl, rfl, rfl⟩

/-- Claim C9 (amended): in manifest mode the first line is discarded only
when it holds no `/`, blank lines are skipped, and the parse fails fast on
the first row with an unsupported type or missing url, citing the file name
and the row's 0-based index among the retained rows (not the file line
number); a slash-free header followed by two valid rows yields exactly those
two descriptors in order, and a first line containing `/` is parsed as
data. -/
theorem C9_manifest_parsing (supported : String → Bool) (file content : String)
    (pre : List String) (l : String) (rest : List String)
    (hrows : manifestRows content = pre ++ l :: rest)
    (hpre : ∀ x ∈ pre, rowOkB supported x = true)
    (hbad : rowOkB supported l = false) :
    (∃ m, parseRow supported file pre.length l = .error m ∧
       listFromFile supported file content = .error m) ∧
    listFromFile (fun t => t = "PROG") "objects.txt"
        "HEADER\nPROG name1 url1\nPROG name2 url2" =
      .ok [{ type := "PROG", name := "name1", url := "url1" },
           { type := "PROG", name := "name2", url := "url2" }] ∧
    listFromFile (fun t => t = "PROG") "objects.txt" "HEADER\n\nPROG name1 url1" =
      .ok [{ type := "PROG", name := "name1", url := "url1" }] ∧
    listFromFile (fun t => t = "PROG") "objects.txt"
        "ZZZ/BAD name url\nPROG name1 url1" =
      .error "Objects of type ZZZ/BAD are not supportes near line 0 of file objects.txt" := by
  refine ⟨?_, rfl, rfl, rfl⟩
  obtain ⟨m, h1, h2⟩ :=
    parseRows_append_error supported file pre l rest hpre hbad 0
  rw [Nat.zero_add] at h1
  refine ⟨m, h1, ?_⟩
  simpa [listFromFile, hrows] using h2

/-- Witness for the amended claim C9: the concrete bad row of the
counterexample file is cited under retained-row index 0. -/
theorem C9_manifest_parsing_witness :
    ∃ m, parseRow (fun t => t = "PROG") "objects.txt" 0 "BAD name url" = .error m ∧
      listFromFile (fun t => t = "PROG") "objects.txt" "HEADER\nBAD name url" =
        .error m := by
  exact (C9_manifest_parsing (fun t => t = "PROG") "objects.txt"
    "HEADER\nBAD name url" [] "BAD name url" [] rfl (by simp) rfl).1

/-- Counterexample for claim C5: the abapLint-config load sits before the
`try`/`finally` of `processObjects`, so when it rejects, the run fails with
no stats line, no session-mode switch and no `dropSession` — cleanup is not
unconditional on "any failure". -/
theorem C5_counterexample :
    (processObjects
      { baseClient with loadAbapLintConfigResult := fun _ => (.error (Err.js "ENOENT: no such file or directory")) }
      (some "abaplint.json") initialStatus [] ⟨false, none⟩).1 =
      .error (Err.js "ENOENT: no such file or directory") ∧
    (processObjects
      { baseClient with loadAbapLintConfigResult := fun _ => (.error (Err.js "ENOENT: no such file or directory")) }
      (some "abaplint.json") initialStatus [] ⟨false, none⟩).2.2.countP
        isDropSessionCall = 0 ∧
    (processObjects
      { baseClient with loadAbapLintConfigResult := fun _ => (.error (Err.js "ENOENT: no such file or directory")) }
      (some "abaplint.json") initialStatus [] ⟨false, none⟩).2.2.countP
        isLogCall = 0 := by
  exact ⟨rfl, rfl, rfl⟩

/-- Claim C5 (amended): once the optional abapLint-config load has succeeded
or been skipped, `processObjects` always ends its trace with the stats line,
the switch back to stateless and `dropSession`, regardless of the loop's
outcome; on a loop failure the failure report (current object, plus current
include when set) precedes that cleanup, and the loop's original error is
returned unchanged. -/
theorem C5_cleanup_and_reraise (c : Client) (abapLint : Option String)
    (st : Status) (objects : List AbapObject) (opts : Options)
    (hcfg : truthyOpt abapLint = false ∨ abapLint = some ABAPLINT_DEFAULT ∨
      c.loadAbapLintConfigResult (showOptStr abapLint) = .ok ()) :
    (processObjects c abapLint st objects opts).1 =
      (processLoop c abapLint st objects opts).1 ∧
    (processObjects c abapLint st objects opts).2.1 =
      (processLoop c abapLint st objects opts).2.1 ∧
    (processObjects c abapLint st objects opts).2.2 =
      (if truthyOpt abapLint && abapLint ≠ some ABAPLINT_DEFAULT then
        [Call.loadLintConfig (showOptStr abapLint)] else []) ++
      Call.setStateful true ::
        ((processLoop c abapLint st objects opts).2.2 ++
          (match (processLoop c abapLint st objects opts).1 with
           | .error _ => failureReport (processLoop c abapLint st objects opts).2.1
           | .ok _ => []) ++
          [Call.log (statsMsg (processLoop c abapLint st objects opts).2.1
             objects.length),
           Call.setStateful false, Call.dropSession]) := by
  by_cases hc : truthyOpt abapLint = true ∧ ¬abapLint = some ABAPLINT_DEFAULT
  · have hload : c.loadAbapLintConfigResult (showOptStr abapLint) = .ok () := by
      rcases hcfg with h1 | h2 | h3
      · rw [h1] at hc
        exact absurd hc.1 (by simp)
      · exact absurd h2 hc.2
      · exact h3
    rcases hl : processLoop c abapLint st objects opts with ⟨r, st1, t1⟩
    cases r <;> simp [processObjects, hc.1, hc.2, hload, hl]
  · rcases hl : processLoop c abapLint st objects opts with ⟨r, st1, t1⟩
    cases r <;> simp [processObjects, hc, hl]

/-- Witness for the amended claim C5: an empty run still emits the stats
line, switches back to stateless and drops the session. -/
theorem C5_cleanup_and_reraise_witness :
    (processObjects baseClient none initialStatus [] ⟨false, none⟩).1 = .ok () ∧
    (processObjects baseClient none initialStatus [] ⟨false, none⟩).2.2 =
      [Call.setStateful true, Call.log (statsMsg initialStatus 0),
       Call.setStateful false, Call.dropSession] := by
  have h := C5_cleanup_and_reraise baseClient none initialStatus []
    ⟨false, none⟩ (Or.inl rfl)
  refine ⟨?_, ?_⟩
  · rw [h.1]
    rfl
  · rw [h.2.2]
    rfl

/-- Status discipline of `write`: on success exactly `writtenIncludes` is
bumped by one; on failure the status is returned untouched. -/
theorem write_status (c : Client) (st : Status) (incl : AbapInclude)
    (formatted : String) (lock : AdtLock) (opts : Options) :
    ((write c st incl formatted lock opts).1 = .ok () →
      (write c st incl formatted lock opts).2.1 =
        { st with writtenIncludes := st.writtenIncludes + 1 }) ∧
    (∀ e, (write c st incl formatted lock opts).1 = .error e →
      (write c st incl formatted lock opts).2.1 = st) := by
  obtain ⟨test, transport⟩ := opts
  by_cases hh : lock.LOCK_HANDLE = ""
  · simp [write, hh]
  · cases hv : validateTransport lock (inclKey incl) transport with
    | error m => simp [write, hh, hv]
    | ok u =>
      cases test with
      | true =>
        cases hu : c.unLockResult incl.sourceUrl lock.LOCK_HANDLE <;>
          simp [write, hh, hv, hu]
      | false =>
        cases hset : c.setObjectSourceResult incl.sourceUrl formatted
            lock.LOCK_HANDLE transport with
        | error e => simp [write, hh, hv, hset]
        | ok _ =>
          cases hu : c.unLockResult incl.sourceUrl lock.LOCK_HANDLE with
          | error e => simp [write, hh, hv, hset, hu]
          | ok _ =>
            rcases ha : activate c incl with ⟨ares, atrace⟩
            cases ares with
            | error e => simp [write, hh, hv, hset, hu, ha]
            | ok active =>
              by_cases hs : active.success = false <;>
                simp [write, hh, hv, hset, hu, ha, hs]

/-- Every call in the activation step's trace is an activation-family call. -/
theorem activate_trace_calls (c : Client) (incl : AbapInclude) :
    ∀ x ∈ (activate c incl).2, isActivationCall x = true := by
  by_cases hty : incl.type = "PROG/I"
  · cases h : c.mainProgramsResult incl.metaUrl with
    | error e => simp [activate, hty, h, isActivationCall]
    | ok mains =>
      cases mains with
      | nil => simp [activate, hty, h, isActivationCall]
      | cons a as => simp [activate, hty, h, isActivationCall]
  · cases h : c.activateResult incl.name incl.sourceUrl none with
    | error e => simp [activate, hty, h, isActivationCall]
    | ok r =>
      by_cases hi : r.inactive.length > 0 <;>
        simp [activate, hty, h, hi, isActivationCall]

/-- Every call in `write`'s trace is a write, unlock or activation call. -/
theorem write_trace_calls (c : Client) (st : Status) (incl : AbapInclude)
    (formatted : String) (lock : AdtLock) (opts : Options) :
    ∀ x ∈ (write c st incl formatted lock opts).2.2,
      isSetSourceCall x = true ∨ isUnLockCall x = true ∨
        isActivationCall x = true := by
  obtain ⟨test, transport⟩ := opts
  by_cases hh : lock.LOCK_HANDLE = ""
  · simp [write, hh]
  · cases hv : validateTransport lock (inclKey incl) transport with
    | error m => simp [write, hh, hv]
    | ok u =>
      cases test with
      | true =>
        cases hu : c.unLockResult incl.sourceUrl lock.LOCK_HANDLE <;>
          simp [write, hh, hv, hu, isUnLockCall]
      | false =>
        cases hset : c.setObjectSourceResult incl.sourceUrl formatted
            lock.LOCK_HANDLE transport with
        | error e => simp [write, hh, hv, hset, isSetSourceCall]
        | ok _ =>
          cases hu : c.unLockResult incl.sourceUrl lock.LOCK_HANDLE with
          | error e => simp [write, hh, hv, hset, hu, isSetSourceCall, isUnLockCall]
          | ok _ =>
            rcases ha : activate c incl with ⟨ares, atrace⟩
            have hat : ∀ x ∈ atrace, isActivationCall x = true := by
              have := activate_trace_calls c incl
              rwa [ha] at this
            cases ares with
            | error e =>
              intro x hx
              simp [write, hh, hv, hset, hu, ha] at hx
              rcases hx with hx | hx | hx
              · exact Or.inl (by simp [hx, isSetSourceCall])
              · exact Or.inr (Or.inl (by simp [hx, isUnLockCall]))
              · exact Or.inr (Or.inr (hat x hx))
            | ok active =>
              by_cases hs : active.success = false <;>
              · intro x hx
                simp [write, hh, hv, hset, hu, ha, hs] at hx
                rcases hx with hx | hx | hx
                · exact Or.inl (by simp [hx, isSetSourceCall])
                · exact Or.inr (Or.inl (by simp [hx, isUnLockCall]))
                · exact Or.inr (Or.inr (hat x hx))

/-- A write, unlock or activation call is never the `getObjectSource` read. -/
theorem call_not_getSource (x : Call)
    (h : isSetSourceCall x = true ∨ isUnLockCall x = true ∨
      isActivationCall x = true) : isGetSourceCall x = false := by
  cases x <;> simp_all [isSetSourceCall, isUnLockCall, isActivationCall,
    isGetSourceCall]

/-- Status and trace discipline of `processInclude`: a successful run clears
`currentInclude`, bumps `processedIncludes` by one and `writtenIncludes` by
at most one; a failed run leaves every counter untouched with
`currentInclude` still set to the include in flight; and each invocation
performs exactly one `getObjectSource` read. -/
theorem processInclude_spec (c : Client) (a : Option String) (st : Status)
    (incl : AbapInclude) (opts : Options) :
    ((processInclude c a st incl opts).1 = .ok () →
      (processInclude c a st incl opts).2.1.currentInclude = none ∧
      (processInclude c a st incl opts).2.1.processedIncludes =
        st.processedIncludes + 1 ∧
      st.writtenIncludes ≤ (processInclude c a st incl opts).2.1.writtenIncludes ∧
      (processInclude c a st incl opts).2.1.writtenIncludes ≤
        st.writtenIncludes + 1 ∧
      (processInclude c a st incl opts).2.1.currentObject = st.currentObject ∧
      (processInclude c a st incl opts).2.1.processedObjects =
        st.processedObjects) ∧
    (∀ e, (processInclude c a st incl opts).1 = .error e →
      (processInclude c a st incl opts).2.1 =
        { st with currentInclude := some incl }) ∧
    (processInclude c a st incl opts).2.2.countP isGetSourceCall = 1 := by
  cases hgs : c.getObjectSourceResult incl.sourceUrl with
  | error e => simp [processInclude, hgs, isGetSourceCall]
  | ok source =>
    rcases hf : format c a incl source with ⟨fres, ftrace⟩
    have hft : ftrace.countP isGetSourceCall = 0 := by
      have : ftrace = (format c a incl source).2 := by rw [hf]
      rw [this]
      by_cases hb : truthyOpt a <;> simp [format, hb, isGetSourceCall]
    cases fres with
    | error e =>
      simp [processInclude, hgs, hf, isGetSourceCall, List.countP_cons, hft]
    | ok formatted =>
      by_cases heq : formatted = source
      · simp [processInclude, hgs, hf, heq, isGetSourceCall, List.countP_cons,
          hft]
      · rcases hl : tryLock c incl.sourceUrl with ⟨lres, ltrace⟩
        have hlt : ltrace.countP isGetSourceCall = 0 := by
          have : ltrace = (tryLock c incl.sourceUrl).2 := by rw [hl]
          rw [this]
          cases hlr : c.lockResult incl.sourceUrl with
          | ok l => simp [tryLock, hlr, isGetSourceCall]
          | error e =>
            cases e with
            | adt info =>
              by_cases hcond : info.type = "ExceptionResourceNoAccess" ∧
                  ¬containsLockedCI info.message = true
              · simp [tryLock, hlr, hcond.1, hcond.2, isGetSourceCall]
              · simp [tryLock, hlr, isGetSourceCall]
                split <;> simp [isGetSourceCall]
            | cli m => simp [tryLock, hlr, isGetSourceCall]
            | js m => simp [tryLock, hlr, isGetSourceCall]
        cases lres with
        | error e =>
          simp [processInclude, hgs, hf, heq, hl, isGetSourceCall,
            List.countP_cons, List.countP_append, hft, hlt]
        | ok olock =>
          cases olock with
          | none =>
            simp [processInclude, hgs, hf, heq, hl, isGetSourceCall,
              List.countP_cons, List.countP_append, hft, hlt]
          | some lock =>
            rcases hw : write c { st with currentInclude := some incl } incl
                formatted lock opts with ⟨wres, st2, wtrace⟩
            have hwt : wtrace.countP isGetSourceCall = 0 := by
              rw [List.countP_eq_zero]
              intro x hx
              have hcls := write_trace_calls c
                { st with currentInclude := some incl } incl formatted lock opts x
                (by rw [hw]; exact hx)
              simp [call_not_getSource x hcls]
            have hws := write_status c { st with currentInclude := some incl }
              incl formatted lock opts
            rw [hw] at hws
            cases wres with
            | error e =>
              have hst2 : st2 = { st with currentInclude := some incl } :=
                hws.2 e rfl
              simp [processInclude, hgs, hf, heq, hl, hw, hst2, isGetSourceCall,
                List.countP_cons, List.countP_append, hft, hlt, hwt]
            | ok u =>
              have hst2 : st2 =
                  { st with currentInclude := some incl,
                            writtenIncludes := st.writtenIncludes + 1 } :=
                hws.1 rfl
              simp [processInclude, hgs, hf, heq, hl, hw, hst2, isGetSourceCall,
                List.countP_cons, List.countP_append, hft, hlt, hwt]

/-- Counter bounds over the include loop: the increase of `writtenIncludes`
never exceeds the increase of `processedIncludes`, which never exceeds the
number of `getObjectSource` reads in the loop's trace. -/
theorem processIncludes_bounds (c : Client) (a : Option String)
    (opts : Options) :
    ∀ (incls : List AbapInclude) (st : Status),
      ∃ dp dw,
        (processIncludes c a st incls opts).2.1.processedIncludes =
          st.processedIncludes + dp ∧
        (processIncludes c a st incls opts).2.1.writtenIncludes =
          st.writtenIncludes + dw ∧
        dw ≤ dp ∧
        dp ≤ (processIncludes c a st incls opts).2.2.countP isGetSourceCall ∧
        (processIncludes c a st incls opts).2.1.processedObjects =
          st.processedObjects ∧
        (processIncludes c a st incls opts).2.1.currentObject =
          st.currentObject := by
  intro incls
  induction incls with
  | nil =>
    intro st
    exact ⟨0, 0, by simp [processIncludes], by simp [processIncludes],
      Nat.le_refl 0, by simp [processIncludes], by simp [processIncludes],
      by simp [processIncludes]⟩
  | cons i rest ih =>
    intro st
    rcases hp : processInclude c a st i opts with ⟨r, st1, t1⟩
    have hspec := processInclude_spec c a st i opts
    rw [hp] at hspec
    have ht1 : t1.countP isGetSourceCall = 1 := hspec.2.2
    cases r with
    | error e =>
      have hst1 : st1 = { st with currentInclude := some i } :=
        hspec.2.1 e rfl
      refine ⟨0, 0, ?_, ?_, Nat.le_refl 0, ?_, ?_, ?_⟩ <;>
        simp [processIncludes, hp, hst1]
    | ok u =>
      have hspec1 := hspec.1 rfl
      dsimp only at hspec1
      obtain ⟨h1, h2, h3, h4, h5, h6⟩ := hspec1
      obtain ⟨dp, dw, g1, g2, g3, g4, g5, g6⟩ := ih st1
      refine ⟨dp + 1, dw + (st1.writtenIncludes - st.writtenIncludes),
        ?_, ?_, ?_, ?_, ?_, ?_⟩
      · simp only [processIncludes, hp]
        omega
      · simp only [processIncludes, hp]
        omega
      · omega
      · simp only [processIncludes, hp, List.countP_append]
        omega
      · simp only [processIncludes, hp]
        omega
      · simp only [processIncludes, hp]
        rw [g6, h5]

/-- Counter bounds over the object loop, by composing the include-loop
bounds object by object. -/
theorem processLoop_bounds (c : Client) (a : Option String) (opts : Options) :
    ∀ (objects : List AbapObject) (st : Status),
      ∃ dp dw,
        (processLoop c a st objects opts).2.1.processedIncludes =
          st.processedIncludes + dp ∧
        (processLoop c a st objects opts).2.1.writtenIncludes =
          st.writtenIncludes + dw ∧
        dw ≤ dp ∧
        dp ≤ (processLoop c a st objects opts).2.2.countP isGetSourceCall := by
  intro objects
  induction objects with
  | nil =>
    intro st
    exact ⟨0, 0, by simp [processLoop], by simp [processLoop], Nat.le_refl 0,
      by simp [processLoop]⟩
  | cons o rest ih =>
    intro st
    cases hx : c.expandResult o with
    | error e =>
      refine ⟨0, 0, ?_, ?_, Nat.le_refl 0, ?_⟩ <;>
        simp [processLoop, hx]
    | ok incls =>
      rcases hi : processIncludes c a { st with currentObject := some o }
          incls opts with ⟨r, st1, t1⟩
      obtain ⟨dp1, dw1, i1, i2, i3, i4, i5, i6⟩ :=
        processIncludes_bounds c a opts incls { st with currentObject := some o }
      rw [hi] at i1 i2 i4 i5 i6
      dsimp only at i1 i2 i4 i5 i6
      cases r with
      | error e =>
        refine ⟨dp1, dw1, ?_, ?_, i3, ?_⟩
        · simp only [processLoop, hx, hi]
          omega
        · simp only [processLoop, hx, hi]
          omega
        · simp only [processLoop, hx, hi]
          rw [List.countP_cons]
          simp only [isGetSourceCall]
          omega
      | ok u =>
        obtain ⟨dp2, dw2, g1, g2, g3, g4⟩ :=
          ih { st1 with processedObjects := st1.processedObjects + 1 }
        dsimp only at g1 g2
        refine ⟨dp1 + dp2, dw1 + dw2, ?_, ?_, ?_, ?_⟩
        · simp only [processLoop, hx, hi]
          omega
        · simp only [processLoop, hx, hi]
          omega
        · omega
        · simp only [processLoop, hx, hi]
          rw [List.countP_cons, List.countP_append]
          simp only [isGetSourceCall]
          omega

/-- Claim C8: `currentInclude` is set exactly for the include whose pipeline
is executing — a completed `processInclude` hands back `none`, an aborted one
still reports the include in flight — and over any whole run started from the
initial status the counters satisfy
`writtenIncludes ≤ processedIncludes ≤` number of includes seen (one
`getObjectSource` read per include seen). -/
theorem C8_status_invariants :
    (∀ (c : Client) (a : Option String) (st : Status) (incl : AbapInclude)
        (opts : Options),
      ((processInclude c a st incl opts).1 = .ok () →
        (processInclude c a st incl opts).2.1.currentInclude = none ∧
        (processInclude c a st incl opts).2.1.processedIncludes =
          st.processedIncludes + 1 ∧
        st.writtenIncludes ≤
          (processInclude c a st incl opts).2.1.writtenIncludes ∧
        (processInclude c a st incl opts).2.1.writtenIncludes ≤
          st.writtenIncludes + 1) ∧
      (∀ e, (processInclude c a st incl opts).1 = .error e →
        (processInclude c a st incl opts).2.1 =
          { st with currentInclude := some incl })) ∧
    (∀ (c : Client) (a : Option String) (objects : List AbapObject)
        (opts : Options),
      (processObjects c a initialStatus objects opts).2.1.writtenIncludes ≤
        (processObjects c a initialStatus objects opts).2.1.processedIncludes ∧
      (processObjects c a initialStatus objects opts).2.1.processedIncludes ≤
        (processObjects c a initialStatus objects opts).2.2.countP
          isGetSourceCall) := by
  constructor
  · intro c a st incl opts
    have h := processInclude_spec c a st incl opts
    exact ⟨fun hok => ⟨(h.1 hok).1, (h.1 hok).2.1, (h.1 hok).2.2.1,
      (h.1 hok).2.2.2.1⟩, h.2.1⟩
  · intro c a objects opts
    obtain ⟨dp, dw, g1, g2, g3, g4⟩ :=
      processLoop_bounds c a opts objects initialStatus
    by_cases hc : truthyOpt a = true ∧ ¬a = some ABAPLINT_DEFAULT
    · cases hload : c.loadAbapLintConfigResult (showOptStr a) with
      | error e =>
        simp [processObjects, hc, hload, initialStatus]
      | ok u =>
        rcases hl : processLoop c a initialStatus objects opts with ⟨r, st1, t1⟩
        rw [hl] at g1 g2 g4
        dsimp only at g1 g2 g4
        simp only [initialStatus] at g1 g2
        cases r <;>
          simp [processObjects, hc.1, hc.2, hload, hl, List.countP_append,
            List.countP_cons, isGetSourceCall] <;>
          omega
    · rcases hl : processLoop c a initialStatus objects opts with ⟨r, st1, t1⟩
      rw [hl] at g1 g2 g4
      dsimp only at g1 g2 g4
      simp only [initialStatus] at g1 g2
      cases r <;>
        simp [processObjects, hc, hl, List.countP_append,
          List.countP_cons, isGetSourceCall] <;>
        omega

/-- Witness for claim C8: a concrete completed include hands back a cleared
`currentInclude`, and a concrete empty run keeps the counter chain. -/
theorem C8_status_invariants_witness :
    (processInclude baseClient none initialStatus sampleInclude
        ⟨false, none⟩).2.1.currentInclude = none ∧
    (processObjects baseClient none initialStatus [] ⟨false, none⟩).2.1.writtenIncludes ≤
      (processObjects baseClient none initialStatus [] ⟨false, none⟩).2.1.processedIncludes := by
  have h := C8_status_invariants
  exact ⟨((h.1 baseClient none initialStatus sampleInclude ⟨false, none⟩).1 rfl).1,
    (h.2 baseClient none [] ⟨false, none⟩).1⟩

end AbapPretty
